import Mathlib

/-!
Shallow embedding of the quiz application's session-state engine.

The repository contains two variants of the same application:
* `src/quiz-app/src/App.jsx` — the multi-category variant (the superset);
* `src/unnamed/part_000` — the single-category variant.

State is held in React `useState` cells and mirrored to `localStorage` by a
write-through effect.  We embed each user intent as a pure step function on an
explicit `EngineState` that carries the in-memory fields together with the
content of the persistence store, applying the save effect atomically at the
end of each step (React runs the effect once per committed state batch).

JavaScript peculiarities that matter and are modelled faithfully:
* `x || d` coerces every falsy `x` (including `""`, `0`, `null`, `undefined`)
  to the default `d` — captured by `jsOrNull` / `Option.getD`;
* `===` between a possibly-`undefined` object field and a possibly-`undefined`
  lookup is equality of `Option String` (`undefined === undefined` is true);
* question records are plain JSON objects, so the correct-answer field may be
  spelled `answer` or `correctAnswer`; accessing the absent spelling yields
  `undefined`.  A `Question` therefore carries both fields as `Option String`.
-/

/-- Association-list lookup (JS object property access: first binding wins;
the engine's inserts keep keys unique). -/
def lookupA {κ α : Type} [DecidableEq κ] : List (κ × α) → κ → Option α
  | [], _ => none
  | (k, v) :: t, i => if k = i then some v else lookupA t i

/-- Association-list update, the JS spread `\x7b...m, [k]: v\x7d`: replaces the
binding for `k` if present, otherwise appends it. -/
def insertA {κ α : Type} [DecidableEq κ] (k : κ) (v : α) : List (κ × α) → List (κ × α)
  | [] => [(k, v)]
  | (k', v') :: t => if k' = k then (k, v) :: t else (k', v') :: insertA k v t

/-- The JS coercion `x || null` on a string-or-null value: the empty string is
falsy, so it collapses to `null` (`none`). -/
def jsOrNull (o : Option String) : Option String :=
  match o with
  | some s => if s = "" then none else some s
  | none => none

/-- A question record as loaded from a JSON data file.  The correct-answer
field may be spelled `answer` or `correctAnswer` depending on the data file;
the absent spelling reads as `undefined` (`none`). -/
structure Question where
  question : String
  options : List String
  answer : Option String
  correctAnswer : Option String
deriving DecidableEq

namespace SCREENS

/-- Screen constant `SCREENS.HOME`. -/
def HOME : String := "home"

/-- Screen constant `SCREENS.QUIZ`. -/
def QUIZ : String := "quiz"

/-- Screen constant `SCREENS.RESULTS`. -/
def RESULTS : String := "results"

end SCREENS

/-- Index-carrying fold underlying `questions.forEach((q, index) => ...)` in
`calculateScore`: counts positions where the recorded answer strictly equals
the field selected by `f` (JS `===` on possibly-undefined values). -/
def scoreAux (f : Question → Option String) (ua : List (Nat × String)) :
    Nat → List Question → Nat
  | _, [] => 0
  | i, q :: t => (if lookupA ua i = f q then 1 else 0) + scoreAux f ua (i + 1) t

/-- `calculateScore` of the multi-category variant
(`src/quiz-app/src/App.jsx`, lines 239–247): compares `userAnswers[index]`
with `q.answer`. -/
def calculateScore (qs : List Question) (ua : List (Nat × String)) : Nat :=
  scoreAux Question.answer ua 0 qs

/-- `calculateScore` of the single-category variant
(`src/unnamed/part_000`, lines 123–131): compares `userAnswers[index]`
with `q.correctAnswer`. -/
def calculateScoreSingle (qs : List Question) (ua : List (Nat × String)) : Nat :=
  scoreAux Question.correctAnswer ua 0 qs

-- IEEE-754 binary64 model for `getPercentage`.  JS numbers are doubles, and
-- `Math.round((calculateScore() / questions.length) * 100)` performs two
-- correctly-rounded (round-to-nearest, ties-to-even) float operations before
-- the final ECMAScript rounding; double rounding can land on the other side
-- of a .5 boundary than exact rational arithmetic would.

/-- Number of binary digits of a natural number (0 for 0).  The structural
fuel of 1100 is far beyond the binary64 exponent range, so it never runs out
on a value a double computation can produce. -/
def nbitsAux : ℕ → ℕ → ℕ
  | 0, _ => 0
  | fuel + 1, x => if x = 0 then 0 else nbitsAux fuel (x / 2) + 1

/-- Bit length of a natural number. -/
def nbits (x : ℕ) : ℕ := nbitsAux 1100 x

/-- Round the ratio `a / b` (for `b ≥ 1`) to the nearest integer, ties to
even — the IEEE-754 default rounding used by every JS arithmetic
operation. -/
def rne (a b : ℕ) : ℕ :=
  let q := a / b
  let r := a % b
  if 2 * r < b then q
  else if b < 2 * r then q + 1
  else if q % 2 = 0 then q
  else q + 1

/-- The binary64 quotient `s / n` for `1 ≤ s ≤ n`, as a significand/scale
pair `(m, f)` with value `m / 2 ^ f` and `2 ^ 52 ≤ m ≤ 2 ^ 52 * 2`.  The
engine always has `score ≤ length`, so the quotient lies in `(0, 1]`,
squarely inside the normal double range. -/
def floatDiv (s n : ℕ) : ℕ × ℕ :=
  let k0 := nbits n - nbits s
  let k := if n ≤ s * 2 ^ k0 then k0 else k0 + 1
  let m := rne (s * 2 ^ (52 + k)) n
  if m = 2 ^ 53 then (2 ^ 52, 51 + k) else (m, 52 + k)

/-- The binary64 product of the double `(m, f)` with the exactly
representable constant 100: the exact product is rounded back to 53
significant bits, ties to even. -/
def floatMul100 (d : ℕ × ℕ) : ℕ × ℕ :=
  let p := d.1 * 100
  let sh := nbits p - 53
  let m := rne p (2 ^ sh)
  if m = 2 ^ 53 then (2 ^ 52, d.2 - sh - 1) else (m, d.2 - sh)

/-- ECMAScript `Math.round` on a nonnegative double `(m, f)`: the integer
nearest `m / 2 ^ f`, ties toward positive infinity, i.e.
`⌊m / 2 ^ f + 1 / 2⌋`, computed on the exact value of the double. -/
def jsRound (d : ℕ × ℕ) : ℕ :=
  (2 * d.1 + 2 ^ d.2) / 2 ^ (d.2 + 1)

/-- `Math.round((s / n) * 100)` in binary64 for `s ≤ n` (`0 / n` is exactly
`0`; `n = 0` gives NaN in JS and lies outside the Question Source contract,
mapped to 0 here). -/
def jsPercent (s n : ℕ) : ℕ :=
  if s = 0 ∨ n = 0 then 0
  else jsRound (floatMul100 (floatDiv s n))

/-- `getPercentage`:
`Math.round((calculateScore() / questions.length) * 100)` evaluated in
IEEE-754 binary64 arithmetic, as the program does. -/
def getPercentage (qs : List Question) (ua : List (Nat × String)) : ℤ :=
  (jsPercent (calculateScore qs ua) qs.length : ℤ)

/-- The grade-class chain on the results screen (`App.jsx` lines 412–423):
`'grade-low'` by default, upgraded through the `if`/`else if` ladder. -/
def gradeClass (p : ℤ) : String :=
  if p ≥ 80 then "grade-excellent"
  else if p ≥ 60 then "grade-good"
  else if p ≥ 40 then "grade-average"
  else "grade-low"

/-- Spec-side match count for §4.3: the number of indices `i` in `[0, n)` at
which a recorded answer exists and equals the correct answer `correct i`. -/
def specMatchCount (correct : Nat → Option String) (ua : List (Nat × String)) (n : Nat) : Nat :=
  ((List.range n).filter fun i => (lookupA ua i).isSome && (lookupA ua i == correct i)).length

-- Helper lemmas about the counting fold.

theorem scoreAux_le (f : Question → Option String) (ua : List (Nat × String)) :
    ∀ (i : Nat) (qs : List Question), scoreAux f ua i qs ≤ qs.length := by
  intro i qs
  induction qs generalizing i with
  | nil => simp [scoreAux]
  | cons q t ih =>
      simp only [scoreAux, List.length_cons]
      have := ih (i + 1)
      split <;> omega

theorem scoreAux_eq_countP (f : Question → Option String) (ua : List (Nat × String)) :
    ∀ (i : Nat) (qs : List Question),
      scoreAux f ua i qs =
        ((List.range qs.length).filter fun j => lookupA ua (i + j) == (qs.get? j).bind f).length := by
  intro i qs
  induction qs generalizing i with
  | nil => simp [scoreAux]
  | cons q t ih =>
      have hfil :
          ((List.range t.length).filter
              ((fun j => lookupA ua (i + j) == ((q :: t).get? j).bind f) ∘ Nat.succ)).length =
            scoreAux f ua (i + 1) t := by
        rw [ih (i + 1)]
        congr 1
        apply List.filter_congr
        intro j _
        show (lookupA ua (i + (j + 1)) == ((q :: t).get? (j + 1)).bind f) = _
        have hij : i + (j + 1) = i + 1 + j := by omega
        simp [hij]
      simp only [scoreAux, List.length_cons, List.range_succ_eq_map, List.filter_cons,
        List.filter_map]
      by_cases h : lookupA ua i = f q
      · rw [if_pos h, if_pos (by simpa using h)]
        simp only [List.length_cons, List.length_map]
        rw [hfil]
        omega
      · rw [if_neg h, if_neg (by simpa using h)]
        simp only [List.length_map]
        rw [hfil]
        omega

theorem score_eq_specMatchCount (f : Question → Option String)
    (qs : List Question) (ua : List (Nat × String)) (h : ∀ q ∈ qs, (f q).isSome) :
    scoreAux f ua 0 qs = specMatchCount (fun i => (qs.get? i).bind f) ua qs.length := by
  rw [scoreAux_eq_countP]
  unfold specMatchCount
  congr 1
  apply List.filter_congr
  intro j hj
  simp only [Nat.zero_add]
  rcases hget : qs.get? j with _ | q
  · exfalso
    have hlen : qs.length ≤ j := List.get?_eq_none.mp hget
    have hlt : j < qs.length := List.mem_range.mp hj
    omega
  · have hq : q ∈ qs := List.get?_mem hget
    obtain ⟨a, ha⟩ := Option.isSome_iff_exists.mp (h q hq)
    cases hl : lookupA ua j <;> simp [ha]

theorem scoreAux_congr (f g : Question → Option String) (ua : List (Nat × String)) :
    ∀ (i : Nat) (qs qs' : List Question), qs.map f = qs'.map g →
      scoreAux f ua i qs = scoreAux g ua i qs' := by
  intro i qs
  induction qs generalizing i with
  | nil =>
      intro qs' h
      cases qs' with
      | nil => rfl
      | cons q' t' => simp at h
  | cons q t ih =>
      intro qs' h
      cases qs' with
      | nil => simp at h
      | cons q' t' =>
          simp only [List.map_cons, List.cons.injEq] at h
          simp [scoreAux, h.1, ih (i + 1) t' h.2]

-- Sample concrete data used by witnesses (three questions, answers A/B/C,
-- both spellings populated, as a schema-conformant data file would provide).

def qSample1 : Question := ⟨"q1", ["A", "X"], some "A", some "A"⟩

def qSample2 : Question := ⟨"q2", ["B", "X"], some "B", some "B"⟩

def qSample3 : Question := ⟨"q3", ["C", "X"], some "C", some "C"⟩

def qsSample : List Question := [qSample1, qSample2, qSample3]

/-- A record that spells its correct answer `correctAnswer` only (as the
single-category data file does). -/
def qCorrectOnly : Question := ⟨"q", ["A", "B"], none, some "A"⟩

/-- A record that spells its correct answer `answer` only (as the
multi-category engine expects). -/
def qAnswerOnly : Question := ⟨"q", ["A", "B"], some "A", none⟩

/-- Claim C1: for every question list and answer assignment, `calculateScore`
equals the number of indices in `[0, questions.length)` whose recorded answer
exists and equals the record's correct answer (the field each engine reads),
unanswered indices never match, and the score is at most `questions.length`.
The hypotheses state the Question Source contract that every record carries
its correct-answer field as a string. -/
theorem c1_score_matches_spec (qs : List Question) (ua : List (Nat × String))
    (hMulti : ∀ q ∈ qs, (Question.answer q).isSome)
    (hSingle : ∀ q ∈ qs, (Question.correctAnswer q).isSome) :
    calculateScore qs ua =
        specMatchCount (fun i => (qs.get? i).bind Question.answer) ua qs.length ∧
      calculateScore qs ua ≤ qs.length ∧
      calculateScoreSingle qs ua =
        specMatchCount (fun i => (qs.get? i).bind Question.correctAnswer) ua qs.length ∧
      calculateScoreSingle qs ua ≤ qs.length :=
  ⟨score_eq_specMatchCount Question.answer qs ua hMulti,
   scoreAux_le Question.answer ua 0 qs,
   score_eq_specMatchCount Question.correctAnswer qs ua hSingle,
   scoreAux_le Question.correctAnswer ua 0 qs⟩

/-- Witness for C1 at a concrete input: three questions with answers A/B/C and
a user who answered indices 0 and 2 correctly and left index 1 unanswered. -/
theorem c1_score_matches_spec_witness :
    calculateScore qsSample [(0, "A"), (2, "C")] =
        specMatchCount (fun i => (qsSample.get? i).bind Question.answer)
          [(0, "A"), (2, "C")] qsSample.length ∧
      calculateScore qsSample [(0, "A"), (2, "C")] ≤ qsSample.length ∧
      calculateScoreSingle qsSample [(0, "A"), (2, "C")] =
        specMatchCount (fun i => (qsSample.get? i).bind Question.correctAnswer)
          [(0, "A"), (2, "C")] qsSample.length ∧
      calculateScoreSingle qsSample [(0, "A"), (2, "C")] ≤ qsSample.length :=
  c1_score_matches_spec qsSample [(0, "A"), (2, "C")] (by decide) (by decide)

/-- Claim C2 as stated is false: neither engine normalizes the two
correct-answer spellings.  A record spelled `correctAnswer` scores 0 in the
multi-category engine even when the user's answer equals its correct answer,
and symmetrically for `answer` in the single-category engine. -/
theorem c2_counterexample :
    calculateScore [qCorrectOnly] [(0, "A")] = 0 ∧
      calculateScoreSingle [qAnswerOnly] [(0, "A")] = 0 ∧
      calculateScore [qAnswerOnly] [(0, "A")] = 1 ∧
      calculateScoreSingle [qCorrectOnly] [(0, "A")] = 1 := by
  decide

/-- Claim C2 amended: no normalization is performed.  The multi-category
score depends only on each record's `answer` field, the single-category score
only on `correctAnswer`, and in the multi-category engine a record lacking
`answer` matches exactly the unanswered indices (JS compares
`undefined === undefined`). -/
theorem c2_no_normalization :
    (∀ (qs qs' : List Question) (ua : List (Nat × String)),
        qs.map Question.answer = qs'.map Question.answer →
        calculateScore qs ua = calculateScore qs' ua) ∧
      (∀ (qs qs' : List Question) (ua : List (Nat × String)),
        qs.map Question.correctAnswer = qs'.map Question.correctAnswer →
        calculateScoreSingle qs ua = calculateScoreSingle qs' ua) ∧
      (∀ (qs : List Question) (ua : List (Nat × String)),
        (∀ q ∈ qs, q.answer = none) →
        calculateScore qs ua =
          ((List.range qs.length).filter fun i => lookupA ua i == none).length) := by
  refine ⟨fun qs qs' ua h => scoreAux_congr _ _ ua 0 qs qs' h,
    fun qs qs' ua h => scoreAux_congr _ _ ua 0 qs qs' h, fun qs ua h => ?_⟩
  rw [calculateScore, scoreAux_eq_countP]
  congr 1
  apply List.filter_congr
  intro j hj
  simp only [Nat.zero_add]
  rcases hget : qs.get? j with _ | q
  · exfalso
    have hlen : qs.length ≤ j := List.get?_eq_none.mp hget
    have hlt : j < qs.length := List.mem_range.mp hj
    omega
  · rw [Option.some_bind, h q (List.get?_mem hget)]

/-- Witness for the amended C2 at concrete inputs. -/
theorem c2_no_normalization_witness :
    calculateScore [qAnswerOnly] [(0, "A")] =
        calculateScore [⟨"other text", [], some "A", some "Z"⟩] [(0, "A")] ∧
      calculateScoreSingle [qCorrectOnly] [(0, "A")] =
        calculateScoreSingle [⟨"other text", [], some "Z", some "A"⟩] [(0, "A")] ∧
      calculateScore [qCorrectOnly] [(0, "A")] =
        ((List.range ([qCorrectOnly] : List Question).length).filter
          fun i => lookupA [(0, "A")] i == none).length :=
  ⟨c2_no_normalization.1 [qAnswerOnly] [⟨"other text", [], some "A", some "Z"⟩]
      [(0, "A")] (by decide),
   c2_no_normalization.2.1 [qCorrectOnly] [⟨"other text", [], some "Z", some "A"⟩]
      [(0, "A")] (by decide),
   c2_no_normalization.2.2 [qCorrectOnly] [(0, "A")] (by decide)⟩

/-- The in-memory session fields of the multi-category `App` (`useState`
cells `currentQuestion`, `userAnswers`, `selectedOption`). -/
structure Session where
  currentQuestion : Nat
  userAnswers : List (Nat × String)
  selectedOption : Option String
deriving DecidableEq

/-- The `useState` defaults: index 0, no answers, no selection. -/
def defaultSession : Session := ⟨0, [], none⟩

/-- A per-category entry of the persisted document, as parsed back from JSON:
any field may be missing. -/
structure StoredSession where
  currentQuestion : Option Nat
  userAnswers : Option (List (Nat × String))
  selectedOption : Option String
deriving DecidableEq

/-- The `currentView` object of the persisted document. -/
structure StoredView where
  screen : Option String
  selectedCategory : Option String
deriving DecidableEq

/-- The persisted document of the multi-category variant (§6). -/
structure PersistedDoc where
  currentView : Option StoredView
  categories : Option (List (String × StoredSession))
deriving DecidableEq

/-- Content of the persistence store slot: absent, an unparseable string, or
a parsed document. -/
inductive StoreVal where
  | absent
  | corrupt
  | doc (d : PersistedDoc)
deriving DecidableEq

/-- Full engine state: the in-memory `useState` fields together with the
persistence store content. -/
structure EngineState where
  screen : String
  selectedCategory : Option String
  sess : Session
  store : StoreVal
deriving DecidableEq

/-- `JSON.stringify` of an in-memory session: every field is written. -/
def storedOfSession (s : Session) : StoredSession :=
  ⟨some s.currentQuestion, some s.userAnswers, s.selectedOption⟩

/-- The three `||` coercions applied when a saved category session is
rehydrated: `currentQuestion || 0`, `userAnswers || \x7b\x7d`,
`selectedOption || null`. -/
def restoreSession (cs : StoredSession) : Session :=
  ⟨cs.currentQuestion.getD 0, cs.userAnswers.getD [], jsOrNull cs.selectedOption⟩

/-- `getSavedCategoryData` (`App.jsx` lines 37–48): parse the store and
return `parsed.categories?.[categoryKey] || null`; `null` on absence or
parse error. -/
def getSavedCategoryData (w : StoreVal) (k : String) : Option StoredSession :=
  match w with
  | .doc d => lookupA (d.categories.getD []) k
  | _ => none

/-- Body of the save effect (`App.jsx` lines 97–123) on the parsed existing
document: overwrite `currentView`, and when a category is selected overwrite
that category's entry only. -/
def saveDoc (s : EngineState) (d0 : PersistedDoc) : PersistedDoc :=
  let d1 : PersistedDoc :=
    { d0 with currentView := some ⟨some s.screen, s.selectedCategory⟩ }
  match s.selectedCategory with
  | some c =>
      let entries := insertA c (storedOfSession s.sess) (d1.categories.getD [])
      { d1 with categories := some entries }
  | none => d1

/-- The write-through save effect: read the existing stored document
(defaulting to an empty-categories document when the slot is empty), merge
the current state, write it back.  A parse failure aborts the whole write
(the `catch` only logs). -/
def saveEffect (s : EngineState) : EngineState :=
  match s.store with
  | .corrupt => s
  | .absent => { s with store := .doc (saveDoc s ⟨none, some []⟩) }
  | .doc d => { s with store := .doc (saveDoc s d) }

/-- The `|| SCREENS.HOME` coercion on the restored screen string. -/
def jsOrHome (o : Option String) : String :=
  match o with
  | some s => if s = "" then SCREENS.HOME else s
  | none => SCREENS.HOME

/-- The mount-time load effect (`App.jsx` lines 73–94): rehydrate the screen,
the selected category and — when a category is selected and has a stored
entry — that category's session, falling back per field; an absent or
unparseable document leaves the `useState` defaults in place.  The store
itself is not modified. -/
def loadState (w : StoreVal) : EngineState :=
  match w with
  | .doc d =>
      let scr := jsOrHome (d.currentView.bind StoredView.screen)
      let cat := jsOrNull (d.currentView.bind StoredView.selectedCategory)
      let sess :=
        match cat with
        | some c =>
            match lookupA (d.categories.getD []) c with
            | some cs => restoreSession cs
            | none => defaultSession
        | none => defaultSession
      ⟨scr, cat, sess, w⟩
  | w => ⟨SCREENS.HOME, none, defaultSession, w⟩

/-- The question list of the active category:
`selectedCategory ? CATEGORIES[selectedCategory].questions : []`. -/
def questionsOf (cats : String → List Question) (s : EngineState) : List Question :=
  match s.selectedCategory with
  | some c => cats c
  | none => []

/-- `selectCategory` (`App.jsx` lines 125–146): restore the category's saved
session if present, else start fresh, and enter the quiz screen. -/
def selectCategory (k : String) (s : EngineState) : EngineState :=
  let sess :=
    match getSavedCategoryData s.store k with
    | some cs => restoreSession cs
    | none => defaultSession
  saveEffect { s with selectedCategory := some k, screen := SCREENS.QUIZ, sess := sess }

/-- `selectOption` (`App.jsx` lines 148–150). -/
def selectOption (o : String) (s : EngineState) : EngineState :=
  saveEffect { s with sess := { s.sess with selectedOption := some o } }

/-- `nextQuestion` (`App.jsx` lines 152–167). -/
def nextQuestion (cats : String → List Question) (s : EngineState) : EngineState :=
  match s.sess.selectedOption with
  | none => s
  | some sel =>
      let qs := questionsOf cats s
      let newAnswers := insertA s.sess.currentQuestion sel s.sess.userAnswers
      if s.sess.currentQuestion < qs.length - 1 then
        saveEffect { s with sess :=
          ⟨s.sess.currentQuestion + 1, newAnswers,
            jsOrNull (lookupA newAnswers (s.sess.currentQuestion + 1))⟩ }
      else
        saveEffect { s with sess := { s.sess with userAnswers := newAnswers } }

/-- `prevQuestion` (`App.jsx` lines 169–184).  The restore on line 181 reads
the pre-commit `userAnswers` closure variable (equivalent here, since the
commit touches a different index). -/
def prevQuestion (s : EngineState) : EngineState :=
  if s.sess.currentQuestion = 0 then s
  else
    let committed :=
      match s.sess.selectedOption with
      | some sel => insertA s.sess.currentQuestion sel s.sess.userAnswers
      | none => s.sess.userAnswers
    saveEffect { s with sess :=
      ⟨s.sess.currentQuestion - 1, committed,
        jsOrNull (lookupA s.sess.userAnswers (s.sess.currentQuestion - 1))⟩ }

/-- `finishQuiz` (`App.jsx` lines 186–197). -/
def finishQuiz (s : EngineState) : EngineState :=
  match s.sess.selectedOption with
  | none => s
  | some sel =>
      let newAnswers := insertA s.sess.currentQuestion sel s.sess.userAnswers
      saveEffect { s with screen := SCREENS.RESULTS, sess := { s.sess with userAnswers := newAnswers } }

/-- `restartQuiz` (`App.jsx` lines 199–209): the multi-category restart
resets only the active category's session (the save effect then overwrites
its entry). -/
def restartQuiz (s : EngineState) : EngineState :=
  saveEffect { s with screen := SCREENS.QUIZ, sess := defaultSession }

/-- `goToHome` (`App.jsx` lines 211–222): clears the transient fields but
leaves every category's stored entry in place. -/
def goToHome (s : EngineState) : EngineState :=
  saveEffect { s with screen := SCREENS.HOME, selectedCategory := none, sess := defaultSession }

/-- User intents at the Presentation → Engine boundary (§6). -/
inductive Intent where
  | selectCategory (k : String)
  | selectOption (o : String)
  | next
  | prev
  | finish
  | restart
  | home
deriving DecidableEq

/-- One engine step per intent. -/
def step (cats : String → List Question) : Intent → EngineState → EngineState
  | .selectCategory k => selectCategory k
  | .selectOption o => selectOption o
  | .next => nextQuestion cats
  | .prev => prevQuestion
  | .finish => finishQuiz
  | .restart => restartQuiz
  | .home => goToHome

/-- Run a list of intents in order. -/
def run (cats : String → List Question) : List Intent → EngineState → EngineState
  | [], s => s
  | i :: t, s => run cats t (step cats i s)

-- Association-list facts.

theorem lookupA_insertA_self {κ α : Type} [DecidableEq κ] (k : κ) (v : α) :
    ∀ l : List (κ × α), lookupA (insertA k v l) k = some v := by
  intro l
  induction l with
  | nil => simp [insertA, lookupA]
  | cons p t ih =>
      obtain ⟨k', v'⟩ := p
      by_cases h : k' = k
      · simp [insertA, h, lookupA]
      · simp [insertA, h, lookupA, ih]

theorem lookupA_insertA_ne {κ α : Type} [DecidableEq κ] (k j : κ) (v : α)
    (hne : k ≠ j) : ∀ l : List (κ × α), lookupA (insertA k v l) j = lookupA l j := by
  intro l
  induction l with
  | nil => simp [insertA, lookupA, hne]
  | cons p t ih =>
      obtain ⟨k', v'⟩ := p
      by_cases h : k' = k
      · subst h
        simp [insertA, lookupA, hne, ih]
      · simp only [insertA, if_neg h, lookupA]
        by_cases h2 : k' = j
        · simp [h2]
        · simp [h2, ih]

/-- A 40-question category (all correct answers `a`). -/
def qs40 : List Question := List.replicate 40 ⟨"q", ["a", "x"], some "a", some "a"⟩

/-- An answer record with the first 23 questions answered correctly. -/
def ua23 : List (Nat × String) := (List.range 23).map fun i => (i, "a")

/-- Claim C6 as stated is false: with 23 of 40 questions correct the exact
half-up rounding of `score / length * 100 = 57.5` is 58, but the program
evaluates `(23 / 40) * 100` in binary64 to `57.49999999999999` (the double
rounding of `23 / 40` falls below the tie) and `Math.round` returns 57. -/
theorem c6_counterexample :
    calculateScore qs40 ua23 = 23 ∧
      qs40.length = 40 ∧
      getPercentage qs40 ua23 = 57 ∧
      ((200 * calculateScore qs40 ua23 + qs40.length) / (2 * qs40.length) : ℕ) = 58 := by
  decide

set_option maxRecDepth 40000 in
/-- Claim C6 amended: `percentage()` is `Math.round` applied to the binary64
evaluation of `score / length * 100` (precondition `length ≥ 1`); it
coincides with the exact integer half-up rounding
`(200 * score + length) / (2 * length)` for every score at every length up
to 39, but not universally — the first divergence is 23 of 40, where the
program yields 57 instead of the exact 58 because floating-point rounding
crosses the .5 boundary. -/
theorem c6_percentage_half_up_small (qs : List Question) (ua : List (Nat × String))
    (h1 : 1 ≤ qs.length) (h2 : qs.length ≤ 39) :
    getPercentage qs ua =
      ((200 * calculateScore qs ua + qs.length) / (2 * qs.length) : ℕ) := by
  have hs : calculateScore qs ua ≤ qs.length := scoreAux_le Question.answer ua 0 qs
  have key : ∀ n < 40, ∀ s < n + 1, 1 ≤ n →
      (jsPercent s n : ℤ) = ((200 * s + n) / (2 * n) : ℕ) := by decide
  exact key qs.length (by omega) (calculateScore qs ua) (by omega) h1

/-- Witness for the amended C6: 2 of 3 correct gives 67 on both sides. -/
theorem c6_percentage_half_up_small_witness :
    getPercentage qsSample [(0, "A"), (2, "C")] =
      ((200 * calculateScore qsSample [(0, "A"), (2, "C")] + qsSample.length) /
        (2 * qsSample.length) : ℕ) :=
  c6_percentage_half_up_small qsSample [(0, "A"), (2, "C")] (by decide) (by decide)

/-- Claim C7: the grade band is `grade-excellent` iff percentage ≥ 80,
`grade-good` iff 60 ≤ percentage < 80, `grade-average` iff
40 ≤ percentage < 60 and `grade-low` iff percentage < 40, each band
inclusive at its lower boundary; and answering 2 of 3 questions correctly
gives percentage 67 and the good band. -/
theorem c7_grade_bands :
    (∀ p : ℤ,
      (gradeClass p = "grade-excellent" ↔ 80 ≤ p) ∧
        (gradeClass p = "grade-good" ↔ 60 ≤ p ∧ p < 80) ∧
        (gradeClass p = "grade-average" ↔ 40 ≤ p ∧ p < 60) ∧
        (gradeClass p = "grade-low" ↔ p < 40)) ∧
      getPercentage qsSample [(0, "A"), (1, "X"), (2, "C")] = 67 ∧
      gradeClass (getPercentage qsSample [(0, "A"), (1, "X"), (2, "C")]) = "grade-good" := by
  have h67 : getPercentage qsSample [(0, "A"), (1, "X"), (2, "C")] = 67 := by decide
  refine ⟨fun p => ?_, h67, by rw [h67]; decide⟩
  unfold gradeClass
  split_ifs with h1 h2 h3
  · exact ⟨iff_of_true rfl h1, iff_of_false (by decide) (by omega),
      iff_of_false (by decide) (by omega), iff_of_false (by decide) (by omega)⟩
  · exact ⟨iff_of_false (by decide) h1, iff_of_true rfl ⟨h2, by omega⟩,
      iff_of_false (by decide) (by omega), iff_of_false (by decide) (by omega)⟩
  · exact ⟨iff_of_false (by decide) h1, iff_of_false (by decide) (by omega),
      iff_of_true rfl ⟨h3, by omega⟩, iff_of_false (by decide) (by omega)⟩
  · exact ⟨iff_of_false (by decide) h1, iff_of_false (by decide) (by omega),
      iff_of_false (by decide) (by omega), iff_of_true rfl (by omega)⟩

-- The save effect writes only the store; in-memory fields pass through.

theorem saveEffect_screen (s : EngineState) : (saveEffect s).screen = s.screen := by
  cases h : s.store <;> simp [saveEffect, h]

theorem saveEffect_selectedCategory (s : EngineState) :
    (saveEffect s).selectedCategory = s.selectedCategory := by
  cases h : s.store <;> simp [saveEffect, h]

theorem saveEffect_sess (s : EngineState) : (saveEffect s).sess = s.sess := by
  cases h : s.store <;> simp [saveEffect, h]

/-- A fixed category table for witnesses: every key holds the three sample
questions. -/
def catsSample : String → List Question := fun _ => qsSample

/-- Claim C4 amended: `nextQuestion` is a silent no-op when `selectedOption`
is absent; otherwise it commits `answers[currentQuestionIndex] = selectedOption`
and leaves the screen and category untouched; below the last index it
advances the index by 1 and sets `selectedOption` to the recorded answer for
the new index with the falsy coercion `|| null` applied (an empty-string
recorded answer is restored as absent); at or beyond the last index the index
and `selectedOption` are unchanged. -/
theorem c4_next_question (cats : String → List Question) (s : EngineState) :
    (s.sess.selectedOption = none → nextQuestion cats s = s) ∧
      (∀ sel, s.sess.selectedOption = some sel →
        (nextQuestion cats s).screen = s.screen ∧
          (nextQuestion cats s).selectedCategory = s.selectedCategory ∧
          (nextQuestion cats s).sess.userAnswers =
            insertA s.sess.currentQuestion sel s.sess.userAnswers) ∧
      (∀ sel, s.sess.selectedOption = some sel →
        s.sess.currentQuestion < (questionsOf cats s).length - 1 →
        (nextQuestion cats s).sess.currentQuestion = s.sess.currentQuestion + 1 ∧
          (nextQuestion cats s).sess.selectedOption =
            jsOrNull (lookupA (insertA s.sess.currentQuestion sel s.sess.userAnswers)
              (s.sess.currentQuestion + 1))) ∧
      (∀ sel, s.sess.selectedOption = some sel →
        ¬ s.sess.currentQuestion < (questionsOf cats s).length - 1 →
        (nextQuestion cats s).sess.currentQuestion = s.sess.currentQuestion ∧
          (nextQuestion cats s).sess.selectedOption = some sel) := by
  refine ⟨fun h => by simp [nextQuestion, h], fun sel h => ?_, fun sel h hc => ?_, fun sel h hc => ?_⟩
  · simp only [nextQuestion, h]
    by_cases hc : s.sess.currentQuestion < (questionsOf cats s).length - 1
    · rw [if_pos hc]
      refine ⟨saveEffect_screen _, saveEffect_selectedCategory _, ?_⟩
      rw [saveEffect_sess]
    · rw [if_neg hc]
      refine ⟨saveEffect_screen _, saveEffect_selectedCategory _, ?_⟩
      rw [saveEffect_sess]
  · simp only [nextQuestion, h]
    rw [if_pos hc]
    constructor
    · rw [saveEffect_sess]
    · rw [saveEffect_sess]
  · simp only [nextQuestion, h]
    rw [if_neg hc]
    constructor
    · rw [saveEffect_sess]
    · rw [saveEffect_sess]

-- Concrete reachable states used in the C4/C5 theorems below.

/-- Fresh quiz state in category `PART1`: index 0, nothing answered. -/
def sFresh : EngineState := selectCategory "PART1" (loadState .absent)

/-- Fresh state with option `A` selected at index 0. -/
def sSel : EngineState := selectOption "A" sFresh

/-- State at the last index (2 of 3) with option `C` selected. -/
def sLast : EngineState :=
  selectOption "C" (nextQuestion catsSample (selectOption "B" (nextQuestion catsSample sSel)))

/-- Reachable state that refutes C4 as stated: index 0 with option `A`
selected while the empty string is recorded as the answer of index 1
(committed earlier via `selectOption ""` and navigation). -/
def sC4 : EngineState :=
  selectOption "A" (prevQuestion (selectOption ""
    (nextQuestion catsSample (selectOption "" sFresh))))

/-- Claim C4 as stated is false: advancing from `sC4` lands on index 1,
where an answer (the empty string) is recorded, yet `selectedOption` becomes
absent instead of that recorded answer (the JS `|| null` coercion). -/
theorem c4_counterexample :
    lookupA (nextQuestion catsSample sC4).sess.userAnswers 1 = some "" ∧
      (nextQuestion catsSample sC4).sess.currentQuestion = 1 ∧
      (nextQuestion catsSample sC4).sess.selectedOption = none := by
  decide

/-- Witness for the amended C4, covering all four branches at concrete
reachable states. -/
theorem c4_next_question_witness :
    nextQuestion catsSample sFresh = sFresh ∧
      ((nextQuestion catsSample sSel).screen = sSel.screen ∧
        (nextQuestion catsSample sSel).selectedCategory = sSel.selectedCategory ∧
        (nextQuestion catsSample sSel).sess.userAnswers =
          insertA sSel.sess.currentQuestion "A" sSel.sess.userAnswers) ∧
      ((nextQuestion catsSample sSel).sess.currentQuestion = sSel.sess.currentQuestion + 1 ∧
        (nextQuestion catsSample sSel).sess.selectedOption =
          jsOrNull (lookupA (insertA sSel.sess.currentQuestion "A" sSel.sess.userAnswers)
            (sSel.sess.currentQuestion + 1))) ∧
      ((nextQuestion catsSample sLast).sess.currentQuestion = sLast.sess.currentQuestion ∧
        (nextQuestion catsSample sLast).sess.selectedOption = some "C") :=
  ⟨(c4_next_question catsSample sFresh).1 (by decide),
   (c4_next_question catsSample sSel).2.1 "A" (by decide),
   (c4_next_question catsSample sSel).2.2.1 "A" (by decide) (by decide),
   (c4_next_question catsSample sLast).2.2.2 "C" (by decide) (by decide)⟩

/-- Claim C5 amended: `prevQuestion` is a no-op at index 0; otherwise it
commits `selectedOption` (when present) to `answers[currentQuestionIndex]`,
decrements the index by 1 and restores `selectedOption` from the answer
recorded at the new index with the falsy coercion `|| null` applied (an
empty-string recorded answer is restored as absent). -/
theorem c5_prev_question (s : EngineState) :
    (s.sess.currentQuestion = 0 → prevQuestion s = s) ∧
      (s.sess.currentQuestion ≠ 0 →
        (prevQuestion s).screen = s.screen ∧
          (prevQuestion s).selectedCategory = s.selectedCategory ∧
          (prevQuestion s).sess.currentQuestion = s.sess.currentQuestion - 1 ∧
          (prevQuestion s).sess.selectedOption =
            jsOrNull (lookupA s.sess.userAnswers (s.sess.currentQuestion - 1))) ∧
      (∀ sel, s.sess.currentQuestion ≠ 0 → s.sess.selectedOption = some sel →
        (prevQuestion s).sess.userAnswers =
          insertA s.sess.currentQuestion sel s.sess.userAnswers) ∧
      (s.sess.currentQuestion ≠ 0 → s.sess.selectedOption = none →
        (prevQuestion s).sess.userAnswers = s.sess.userAnswers) := by
  refine ⟨fun h => by simp [prevQuestion, h], fun h => ?_, fun sel h hsel => ?_, fun h hsel => ?_⟩
  · simp only [prevQuestion, if_neg h]
    refine ⟨saveEffect_screen _, saveEffect_selectedCategory _, ?_, ?_⟩
    · rw [saveEffect_sess]
    · rw [saveEffect_sess]
  · simp only [prevQuestion, if_neg h, hsel]
    rw [saveEffect_sess]
  · simp only [prevQuestion, if_neg h, hsel]
    rw [saveEffect_sess]

/-- Reachable state that refutes C5 as stated: index 1 with the empty string
recorded as the answer of index 0. -/
def sC5 : EngineState := nextQuestion catsSample (selectOption "" sFresh)

/-- Claim C5 as stated is false: moving back from `sC5` reaches index 0,
where an answer (the empty string) is recorded, yet `selectedOption` is
restored as absent instead of that recorded answer. -/
theorem c5_counterexample :
    lookupA sC5.sess.userAnswers 0 = some "" ∧
      sC5.sess.currentQuestion = 1 ∧
      (prevQuestion sC5).sess.currentQuestion = 0 ∧
      (prevQuestion sC5).sess.selectedOption = none := by
  decide

/-- Witness for the amended C5, covering the no-op, the commit and the
no-commit branches at concrete reachable states. -/
theorem c5_prev_question_witness :
    prevQuestion sFresh = sFresh ∧
      ((prevQuestion sC5).screen = sC5.screen ∧
        (prevQuestion sC5).selectedCategory = sC5.selectedCategory ∧
        (prevQuestion sC5).sess.currentQuestion = sC5.sess.currentQuestion - 1 ∧
        (prevQuestion sC5).sess.selectedOption =
          jsOrNull (lookupA sC5.sess.userAnswers (sC5.sess.currentQuestion - 1))) ∧
      (prevQuestion (selectOption "B" sC5)).sess.userAnswers =
        insertA (selectOption "B" sC5).sess.currentQuestion "B"
          (selectOption "B" sC5).sess.userAnswers ∧
      (prevQuestion sC5).sess.userAnswers = sC5.sess.userAnswers :=
  ⟨(c5_prev_question sFresh).1 (by decide),
   (c5_prev_question sC5).2.1 (by decide),
   (c5_prev_question (selectOption "B" sC5)).2.2.1 "B" (by decide) (by decide),
   (c5_prev_question sC5).2.2.2 (by decide) (by decide)⟩

theorem jsOrNull_ne_empty (o : Option String) : jsOrNull o ≠ some "" := by
  cases o with
  | none => simp [jsOrNull]
  | some s =>
      simp only [jsOrNull]
      split
      · simp
      · simp
        intro h
        simp_all

theorem jsOrNull_eq_self (o : Option String) (h : o ≠ some "") : jsOrNull o = o := by
  cases o with
  | none => rfl
  | some s =>
      simp only [jsOrNull]
      rw [if_neg]
      intro he
      exact h (by rw [he])

theorem restoreSession_storedOfSession (ss : Session) (h : ss.selectedOption ≠ some "") :
    restoreSession (storedOfSession ss) = ss := by
  obtain ⟨cq, ua, so⟩ := ss
  simp only [restoreSession, storedOfSession, Option.getD_some]
  rw [jsOrNull_eq_self _ h]

/-- Claim C8: `load` is total (it never throws); an absent or unparseable
stored value yields the all-defaults state (HOME screen, no category,
default session), and for parseable documents each missing field
independently falls back to its default. -/
theorem c8_load_defaults :
    loadState .absent = ⟨SCREENS.HOME, none, defaultSession, .absent⟩ ∧
      loadState .corrupt = ⟨SCREENS.HOME, none, defaultSession, .corrupt⟩ ∧
      (∀ d : PersistedDoc, d.currentView = none →
        loadState (.doc d) = ⟨SCREENS.HOME, none, defaultSession, .doc d⟩) ∧
      (∀ d v, d.currentView = some v → v.screen = none →
        (loadState (.doc d)).screen = SCREENS.HOME) ∧
      (∀ d v, d.currentView = some v → v.selectedCategory = none →
        (loadState (.doc d)).selectedCategory = none ∧
          (loadState (.doc d)).sess = defaultSession) ∧
      (∀ d v c, d.currentView = some v → v.selectedCategory = some c → c ≠ "" →
        (loadState (.doc d)).selectedCategory = some c) ∧
      (∀ d v c, d.currentView = some v → v.selectedCategory = some c → c ≠ "" →
        getSavedCategoryData (.doc d) c = none →
        (loadState (.doc d)).sess = defaultSession) ∧
      (∀ d v c cs, d.currentView = some v → v.selectedCategory = some c → c ≠ "" →
        getSavedCategoryData (.doc d) c = some cs →
        (loadState (.doc d)).sess = restoreSession cs ∧
          (cs.currentQuestion = none → (loadState (.doc d)).sess.currentQuestion = 0) ∧
          (cs.userAnswers = none → (loadState (.doc d)).sess.userAnswers = []) ∧
          (cs.selectedOption = none → (loadState (.doc d)).sess.selectedOption = none)) := by
  refine ⟨rfl, rfl, ?_, ?_, ?_, ?_, ?_, ?_⟩
  · intro d h
    simp [loadState, h, jsOrHome, jsOrNull]
  · intro d v h hscr
    simp [loadState, h, hscr, jsOrHome]
  · intro d v h hsc
    simp [loadState, h, hsc, jsOrNull]
  · intro d v c h hsc hc
    simp [loadState, h, hsc, jsOrNull, hc]
  · intro d v c h hsc hc hlk
    simp only [getSavedCategoryData] at hlk
    simp [loadState, h, hsc, jsOrNull, hc, hlk]
  · intro d v c cs h hsc hc hlk
    simp only [getSavedCategoryData] at hlk
    have hsess : (loadState (.doc d)).sess = restoreSession cs := by
      simp [loadState, h, hsc, jsOrNull, hc, hlk]
    refine ⟨hsess, ?_, ?_, ?_⟩
    · intro hq
      rw [hsess]
      simp [restoreSession, hq]
    · intro hua
      rw [hsess]
      simp [restoreSession, hua]
    · intro hso
      rw [hsess]
      simp [restoreSession, hso, jsOrNull]

/-- A partially-populated stored document used by witnesses: the view lacks
its screen field and category `PART1` has an entry with every field
missing. -/
def docPartial : PersistedDoc :=
  ⟨some ⟨none, some "PART1"⟩, some [("PART1", ⟨none, none, none⟩)]⟩

/-- Witness for C8 at concrete inputs. -/
theorem c8_load_defaults_witness :
    loadState .absent = ⟨SCREENS.HOME, none, defaultSession, .absent⟩ ∧
      (loadState (.doc docPartial)).screen = SCREENS.HOME ∧
      (loadState (.doc docPartial)).selectedCategory = some "PART1" ∧
      (loadState (.doc docPartial)).sess.currentQuestion = 0 ∧
      (loadState (.doc docPartial)).sess.userAnswers = [] ∧
      (loadState (.doc docPartial)).sess.selectedOption = none :=
  ⟨c8_load_defaults.1,
   c8_load_defaults.2.2.2.1 docPartial ⟨none, some "PART1"⟩ rfl rfl,
   c8_load_defaults.2.2.2.2.2.1 docPartial ⟨none, some "PART1"⟩ "PART1" rfl rfl (by decide),
   (c8_load_defaults.2.2.2.2.2.2.2 docPartial ⟨none, some "PART1"⟩ "PART1" ⟨none, none, none⟩
      rfl rfl (by decide) rfl).2.1 rfl,
   (c8_load_defaults.2.2.2.2.2.2.2 docPartial ⟨none, some "PART1"⟩ "PART1" ⟨none, none, none⟩
      rfl rfl (by decide) rfl).2.2.1 rfl,
   (c8_load_defaults.2.2.2.2.2.2.2 docPartial ⟨none, some "PART1"⟩ "PART1" ⟨none, none, none⟩
      rfl rfl (by decide) rfl).2.2.2 rfl⟩

/-- Claim C10: rehydration coerces every falsy stored field to its default:
a stored empty-string `selectedOption` is restored as absent (both by the
load effect and by `selectCategory`), a falsy stored `currentQuestion` is
restored as 0, and no state produced by `load` ever carries an empty-string
`selectedOption` — so a committed empty-string option does not survive a
save-then-load cycle. -/
theorem c10_falsy_rehydration :
    (∀ w : StoreVal, (loadState w).sess.selectedOption ≠ some "") ∧
      (∀ d v c cs, d.currentView = some v → v.selectedCategory = some c → c ≠ "" →
        getSavedCategoryData (.doc d) c = some cs → cs.selectedOption = some "" →
        (loadState (.doc d)).sess.selectedOption = none) ∧
      (∀ d v c cs, d.currentView = some v → v.selectedCategory = some c → c ≠ "" →
        getSavedCategoryData (.doc d) c = some cs →
        (cs.currentQuestion = none ∨ cs.currentQuestion = some 0) →
        (loadState (.doc d)).sess.currentQuestion = 0) ∧
      (∀ (s : EngineState) (k : String) (cs : StoredSession),
        getSavedCategoryData s.store k = some cs → cs.selectedOption = some "" →
        (selectCategory k s).sess.selectedOption = none) ∧
      (∀ s : EngineState, (loadState (saveEffect s).store).sess.selectedOption ≠ some "") := by
  have hw : ∀ w : StoreVal, (loadState w).sess.selectedOption ≠ some "" := by
    intro w
    cases w with
    | absent => simp [loadState, defaultSession]
    | corrupt => simp [loadState, defaultSession]
    | doc d =>
        simp only [loadState]
        cases hcat : jsOrNull (d.currentView.bind StoredView.selectedCategory) with
        | none => simp [defaultSession]
        | some c =>
            cases hlk : lookupA (d.categories.getD []) c with
            | none => simp [hlk, defaultSession]
            | some cs =>
                simp only [hlk]
                simpa [restoreSession] using jsOrNull_ne_empty cs.selectedOption
  refine ⟨hw, ?_, ?_, ?_, fun s => hw _⟩
  · intro d v c cs h hsc hc hlk hso
    simp only [getSavedCategoryData] at hlk
    simp [loadState, h, hsc, jsOrNull, hc, hlk, restoreSession, hso]
  · intro d v c cs h hsc hc hlk hq
    simp only [getSavedCategoryData] at hlk
    rcases hq with hq | hq <;>
      simp [loadState, h, hsc, jsOrNull, hc, hlk, restoreSession, hq]
  · intro s k cs hlk hso
    simp only [selectCategory, hlk]
    rw [saveEffect_sess]
    simp [restoreSession, hso, jsOrNull]

/-- Witness for C10 at concrete inputs: a stored document whose `PART1` entry
records the empty string as `selectedOption` and 0 as `currentQuestion`. -/
def docFalsy : PersistedDoc :=
  ⟨some ⟨some "quiz", some "PART1"⟩, some [("PART1", ⟨some 0, some [(0, "")], some ""⟩)]⟩

/-- Witness for C10. -/
theorem c10_falsy_rehydration_witness :
    (loadState (.doc docFalsy)).sess.selectedOption ≠ some "" ∧
      (loadState (.doc docFalsy)).sess.selectedOption = none ∧
      (loadState (.doc docFalsy)).sess.currentQuestion = 0 ∧
      (selectCategory "PART1" (loadState (.doc docFalsy))).sess.selectedOption = none ∧
      (loadState (saveEffect (loadState (.doc docFalsy))).store).sess.selectedOption ≠ some "" :=
  ⟨c10_falsy_rehydration.1 (.doc docFalsy),
   c10_falsy_rehydration.2.1 docFalsy ⟨some "quiz", some "PART1"⟩ "PART1"
     ⟨some 0, some [(0, "")], some ""⟩ rfl rfl (by decide) rfl rfl,
   c10_falsy_rehydration.2.2.1 docFalsy ⟨some "quiz", some "PART1"⟩ "PART1"
     ⟨some 0, some [(0, "")], some ""⟩ rfl rfl (by decide) rfl (Or.inr rfl),
   c10_falsy_rehydration.2.2.2.1 (loadState (.doc docFalsy)) "PART1"
     ⟨some 0, some [(0, "")], some ""⟩ rfl rfl,
   c10_falsy_rehydration.2.2.2.2 (loadState (.doc docFalsy))⟩

/-- Reachable state with a committed empty-string option: select the
empty-string option in a fresh `PART1` quiz. -/
def sC3 : EngineState := selectOption "" sFresh

/-- Claim C3 as stated is false: at the reachable state `sC3` (whose
`selectedOption` is the legal option string `""`), save-then-load restores
`selectedOption` as absent, so `load(save(state)) ≠ state`. -/
theorem c3_counterexample :
    sC3.sess.selectedOption = some "" ∧
      (loadState (saveEffect sC3).store).screen = sC3.screen ∧
      (loadState (saveEffect sC3).store).selectedCategory = sC3.selectedCategory ∧
      (loadState (saveEffect sC3).store).sess.selectedOption = none ∧
      loadState (saveEffect sC3).store ≠ sC3 := by
  decide

/-- Claim C3 amended: save-then-load is the identity on every state whose
store is readable, whose screen and selected category id are nonempty
strings, whose `selectedOption` is not the empty string, and which carries
the default session when no category is selected — all invariants of states
reachable with nonempty option strings.  An empty-string `selectedOption`
(reachable, since option strings are arbitrary) is the one modeled field the
cycle loses, per `c3_counterexample`. -/
theorem loadState_saveDoc (s : EngineState) (d0 : PersistedDoc)
    (hscr : s.screen ≠ "")
    (hcat : s.selectedCategory ≠ some "")
    (hso : s.sess.selectedOption ≠ some "")
    (hhome : s.selectedCategory = none → s.sess = defaultSession) :
    loadState (.doc (saveDoc s d0)) =
      ⟨s.screen, s.selectedCategory, s.sess, .doc (saveDoc s d0)⟩ := by
  obtain ⟨scr, cat, sess, store⟩ := s
  simp only at hscr hcat hso hhome ⊢
  cases cat with
  | none =>
      have hsess := hhome rfl
      simp [loadState, saveDoc, jsOrHome, if_neg hscr, jsOrNull, hsess]
  | some c =>
      have hcne : c ≠ "" := fun he => hcat (by rw [he])
      have hview : (saveDoc ⟨scr, some c, sess, store⟩ d0).currentView =
          some ⟨some scr, some c⟩ := by
        simp [saveDoc]
      have hcats : (saveDoc ⟨scr, some c, sess, store⟩ d0).categories =
          some (insertA c (storedOfSession sess) (d0.categories.getD [])) := by
        simp [saveDoc]
      simp only [loadState, hview, hcats, Option.some_bind]
      rw [show jsOrNull (some c) = some c from by simp [jsOrNull, hcne]]
      simp only [Option.getD_some, lookupA_insertA_self]
      rw [restoreSession_storedOfSession sess hso]
      simp [jsOrHome, if_neg hscr]

theorem c3_round_trip (s : EngineState)
    (hstore : s.store ≠ .corrupt)
    (hscr : s.screen ≠ "")
    (hcat : s.selectedCategory ≠ some "")
    (hso : s.sess.selectedOption ≠ some "")
    (hhome : s.selectedCategory = none → s.sess = defaultSession) :
    loadState (saveEffect s).store = saveEffect s ∧
      (saveEffect s).screen = s.screen ∧
      (saveEffect s).selectedCategory = s.selectedCategory ∧
      (saveEffect s).sess = s.sess := by
  refine ⟨?_, saveEffect_screen s, saveEffect_selectedCategory s, saveEffect_sess s⟩
  cases hst : s.store with
  | corrupt => exact absurd hst hstore
  | absent =>
      have hsv : saveEffect s = { s with store := .doc (saveDoc s ⟨none, some []⟩) } := by
        simp [saveEffect, hst]
      rw [hsv]
      show loadState (.doc (saveDoc s ⟨none, some []⟩)) =
        { s with store := .doc (saveDoc s ⟨none, some []⟩) }
      rw [loadState_saveDoc s ⟨none, some []⟩ hscr hcat hso hhome]
  | doc d =>
      have hsv : saveEffect s = { s with store := .doc (saveDoc s d) } := by
        simp [saveEffect, hst]
      rw [hsv]
      show loadState (.doc (saveDoc s d)) = { s with store := .doc (saveDoc s d) }
      rw [loadState_saveDoc s d hscr hcat hso hhome]

/-- Witness for the amended C3 at the reachable state `sSel`. -/
theorem c3_round_trip_witness :
    loadState (saveEffect sSel).store = saveEffect sSel ∧
      (saveEffect sSel).screen = sSel.screen ∧
      (saveEffect sSel).selectedCategory = sSel.selectedCategory ∧
      (saveEffect sSel).sess = sSel.sess :=
  c3_round_trip sSel (by decide) (by decide) (by decide) (by decide) (by decide)

/-- Whether an intent opens category `A` (the only way any operation can
write `A`'s stored entry while another category is active). -/
def touchesCategory (A : String) : Intent → Bool
  | .selectCategory k => k == A
  | _ => false

theorem saveDoc_lookup_ne (s : EngineState) (d0 : PersistedDoc) (A : String)
    (h : s.selectedCategory ≠ some A) :
    lookupA ((saveDoc s d0).categories.getD []) A = lookupA (d0.categories.getD []) A := by
  cases hc : s.selectedCategory with
  | none => simp [saveDoc, hc]
  | some c =>
      have hcA : c ≠ A := fun he => h (by rw [hc, he])
      simp [saveDoc, hc, lookupA_insertA_ne c A _ hcA]

theorem saveEffect_entry_ne (s : EngineState) (A : String)
    (h : s.selectedCategory ≠ some A) :
    getSavedCategoryData (saveEffect s).store A = getSavedCategoryData s.store A := by
  cases hst : s.store with
  | corrupt => simp [saveEffect, hst]
  | absent =>
      simp [saveEffect, hst, getSavedCategoryData, saveDoc_lookup_ne s _ A h, lookupA]
  | doc d =>
      simp [saveEffect, hst, getSavedCategoryData, saveDoc_lookup_ne s d A h]

theorem goToHome_selectedCategory (s : EngineState) :
    (goToHome s).selectedCategory = none := by
  simp only [goToHome]
  rw [saveEffect_selectedCategory]

theorem goToHome_entry (s : EngineState) (A : String) :
    getSavedCategoryData (goToHome s).store A = getSavedCategoryData s.store A := by
  simp only [goToHome]
  rw [saveEffect_entry_ne _ _ (by simp)]

theorem selectCategory_restore (k : String) (s : EngineState) (cs : StoredSession)
    (h : getSavedCategoryData s.store k = some cs) :
    (selectCategory k s).sess = restoreSession cs ∧
      (selectCategory k s).selectedCategory = some k ∧
      (selectCategory k s).screen = SCREENS.QUIZ := by
  simp only [selectCategory, h]
  exact ⟨by rw [saveEffect_sess], by rw [saveEffect_selectedCategory],
    by rw [saveEffect_screen]⟩

theorem step_frame (cats : String → List Question) (A : String) (i : Intent)
    (s : EngineState) (hcat : s.selectedCategory ≠ some A)
    (hi : touchesCategory A i = false) :
    (step cats i s).selectedCategory ≠ some A ∧
      getSavedCategoryData (step cats i s).store A = getSavedCategoryData s.store A := by
  cases i with
  | selectCategory k =>
      have hk : k ≠ A := by simpa [touchesCategory] using hi
      constructor
      · simp only [step, selectCategory]
        rw [saveEffect_selectedCategory]
        simp [hk]
      · simp only [step, selectCategory]
        rw [saveEffect_entry_ne _ _ (by simp [hk])]
  | selectOption o =>
      constructor
      · simp only [step, selectOption]
        rw [saveEffect_selectedCategory]
        exact hcat
      · simp only [step, selectOption]
        exact saveEffect_entry_ne _ _ hcat
  | next =>
      cases hsel : s.sess.selectedOption with
      | none => simp [step, nextQuestion, hsel, hcat]
      | some sel =>
          simp only [step, nextQuestion, hsel]
          split
          · exact ⟨by rw [saveEffect_selectedCategory]; exact hcat,
              saveEffect_entry_ne _ _ hcat⟩
          · exact ⟨by rw [saveEffect_selectedCategory]; exact hcat,
              saveEffect_entry_ne _ _ hcat⟩
  | prev =>
      by_cases h0 : s.sess.currentQuestion = 0
      · simp [step, prevQuestion, h0, hcat]
      · simp only [step, prevQuestion, if_neg h0]
        exact ⟨by rw [saveEffect_selectedCategory]; exact hcat,
          saveEffect_entry_ne _ _ hcat⟩
  | finish =>
      cases hsel : s.sess.selectedOption with
      | none => simp [step, finishQuiz, hsel, hcat]
      | some sel =>
          simp only [step, finishQuiz, hsel]
          exact ⟨by rw [saveEffect_selectedCategory]; exact hcat,
            saveEffect_entry_ne _ _ hcat⟩
  | restart =>
      exact ⟨by simp only [step, restartQuiz]; rw [saveEffect_selectedCategory]; exact hcat,
        by simp only [step, restartQuiz]; exact saveEffect_entry_ne _ _ hcat⟩
  | home =>
      exact ⟨by simp only [step, goToHome]; rw [saveEffect_selectedCategory]; simp,
        by simp only [step, goToHome]; rw [saveEffect_entry_ne _ _ (by simp)]⟩

theorem run_frame (cats : String → List Question) (A : String) :
    ∀ (ops : List Intent) (s : EngineState),
      s.selectedCategory ≠ some A →
      (∀ i ∈ ops, touchesCategory A i = false) →
      (run cats ops s).selectedCategory ≠ some A ∧
        getSavedCategoryData (run cats ops s).store A = getSavedCategoryData s.store A := by
  intro ops
  induction ops with
  | nil =>
      intro s h _
      exact ⟨h, rfl⟩
  | cons i t ih =>
      intro s h hops
      have hi := hops i (List.mem_cons_self i t)
      have hstep := step_frame cats A i s h hi
      have ht := ih (step cats i s) hstep.1 (fun j hj => hops j (List.mem_cons_of_mem i hj))
      exact ⟨ht.1, ht.2.trans hstep.2⟩

/-- Claim C9: a category's saved session is never deleted by operations on
other categories or by navigation.  From any coherent state in category `A`
(store readable with `A`'s entry equal to the live session, `selectedOption`
not the falsy empty string), going home, running any intents that never
reopen `A`, and selecting `A` again finds `A`'s stored entry intact and
restores `currentQuestionIndex`, `answers` and `selectedOption` exactly. -/
theorem c9_category_isolation (cats : String → List Question) (A : String)
    (ops : List Intent) (s : EngineState)
    (_hA : s.selectedCategory = some A)
    (hso : s.sess.selectedOption ≠ some "")
    (hentry : getSavedCategoryData s.store A = some (storedOfSession s.sess))
    (hops : ∀ i ∈ ops, touchesCategory A i = false) :
    getSavedCategoryData (run cats ops (goToHome s)).store A =
        some (storedOfSession s.sess) ∧
      (selectCategory A (run cats ops (goToHome s))).sess = s.sess ∧
      (selectCategory A (run cats ops (goToHome s))).selectedCategory = some A ∧
      (selectCategory A (run cats ops (goToHome s))).screen = SCREENS.QUIZ := by
  have hg1 : (goToHome s).selectedCategory ≠ some A := by
    rw [goToHome_selectedCategory]
    simp
  have hg2 : getSavedCategoryData (goToHome s).store A = some (storedOfSession s.sess) := by
    rw [goToHome_entry]
    exact hentry
  have hframe := run_frame cats A ops (goToHome s) hg1 hops
  have hentry2 : getSavedCategoryData (run cats ops (goToHome s)).store A =
      some (storedOfSession s.sess) := hframe.2.trans hg2
  have hres := selectCategory_restore A (run cats ops (goToHome s))
    (storedOfSession s.sess) hentry2
  refine ⟨hentry2, ?_, hres.2.1, hres.2.2⟩
  rw [hres.1, restoreSession_storedOfSession s.sess hso]

-- Concrete five-question data for the C9 scenario (2 of 5 answered in A,
-- a detour through category B, then back to A).

def qsFive : List Question :=
  [⟨"q1", ["a", "x"], some "a", some "a"⟩,
   ⟨"q2", ["b", "x"], some "b", some "b"⟩,
   ⟨"q3", ["c", "x"], some "c", some "c"⟩,
   ⟨"q4", ["d", "x"], some "d", some "d"⟩,
   ⟨"q5", ["e", "x"], some "e", some "e"⟩]

/-- Category table with five questions per category. -/
def catsFive : String → List Question := fun _ => qsFive

/-- State after answering 2 of 5 questions in category `PART1`. -/
def sA2 : EngineState :=
  run catsFive
    [.selectCategory "PART1", .selectOption "a", .next, .selectOption "b", .next]
    (loadState .absent)

/-- A detour through category `PART2` that never reopens `PART1`. -/
def opsB : List Intent := [.selectCategory "PART2", .selectOption "x", .next, .home]

/-- Witness for C9: the concrete spec scenario (answer 2 of 5 in A, visit B,
return to A). -/
theorem c9_category_isolation_witness :
    getSavedCategoryData (run catsFive opsB (goToHome sA2)).store "PART1" =
        some (storedOfSession sA2.sess) ∧
      (selectCategory "PART1" (run catsFive opsB (goToHome sA2))).sess = sA2.sess ∧
      (selectCategory "PART1" (run catsFive opsB (goToHome sA2))).selectedCategory =
        some "PART1" ∧
      (selectCategory "PART1" (run catsFive opsB (goToHome sA2))).screen = SCREENS.QUIZ :=
  c9_category_isolation catsFive "PART1" opsB sA2 (by decide) (by decide)
    (by decide) (by decide)
